import Mathlib

/-!
Verification of the Lights Out engine (`src/main.rs`).

The Rust source is embedded shallowly:

* `Reactive<T>` (a value plus an ordered list of observer callbacks) becomes
  `Reactive O T`, where observers are opaque tokens of type `O`; a scoped
  mutation through a `ReactiveMut` handle is modelled by `Reactive.runScope`,
  which records the field writes performed inside the scope and the observer
  invocations fired by `Drop for ReactiveMut` as an explicit event trace.
* `Light`, `Game`, and the `Game` methods (`new_empty`, `new_random`,
  `toggle`, `toggle_rc`, `check_rc`, `all_off`, `make_move`) are translated
  directly; a Rust `assert!` failure (panic) is modelled by returning `none`.
* The `rand` shuffle in `new_random` is modelled by passing the post-shuffle
  boolean array as an explicit argument; theorems quantify over every
  permutation of the pre-shuffle array.
* `impl Display for Game` becomes `Game.render`, accumulating the same
  `write!` calls into a `String`.
-/

set_option maxHeartbeats 1600000

/-- Embeds `struct Reactive<T> { inner: T, listeners: Vec<Box<FnMut(&T)>> }`.
Observer callbacks are kept as opaque tokens of type `O`; what a callback does
is outside the cell, only its identity and invocation order are modelled. -/
structure Reactive (O : Type) (T : Type) where
  inner : T
  listeners : List O

/-- Embeds `Reactive::new`. -/
def Reactive.new {O T : Type} (inner : T) : Reactive O T :=
  { inner := inner, listeners := [] }

/-- Observable events of one scoped mutation: a field write inside the open
scope (recording the value just written), or an observer invocation fired on
handle release, recording which observer runs and the value it is passed. -/
inductive REvent (O T : Type) where
  | write (val : T)
  | invoke (obs : O) (val : T)

/-- Whether an event is an observer invocation. -/
def REvent.isInvoke {O T : Type} : REvent O T → Bool
  | .invoke _ _ => true
  | .write _ => false

/-- Runs the writes performed inside an open mutation scope, in order,
returning the final value and the write events. -/
def applyWrites {O T : Type} (v : T) : List (T → T) → T × List (REvent O T)
  | [] => (v, [])
  | f :: fs =>
    let r := applyWrites (f v) fs
    (r.1, REvent.write (f v) :: r.2)

/-- Embeds the loop in `Drop for ReactiveMut`:
`for f in self.reactive.listeners.iter_mut() { f(&self.reactive.inner); }`. -/
def notifyAll {O T : Type} (v : T) : List O → List (REvent O T)
  | [] => []
  | o :: os => REvent.invoke o v :: notifyAll v os

/-- Embeds a whole scoped mutation: `Reactive::lock` hands out a handle, the
caller performs `writes` through `DerefMut`, and dropping the handle notifies
every listener with the final value.  Returns the cell after the scope and the
full event trace. -/
def Reactive.runScope {O T : Type} (r : Reactive O T) (writes : List (T → T)) :
    Reactive O T × List (REvent O T) :=
  let p := @applyWrites O T r.inner writes
  ({ inner := p.1, listeners := r.listeners }, p.2 ++ notifyAll p.1 r.listeners)

/-- Embeds `struct Light { status: bool }`. -/
structure Light where
  status : Bool

/-- Embeds `Light::new`. -/
def Light.new : Light := { status := false }

/-- Embeds `Light::toggle`: `self.status = !self.status`. -/
def Light.toggle (l : Light) : Light := { status := !l.status }

/-- Embeds `struct Game { lights: [Reactive<Light>; 25], moves: Reactive<usize> }`. -/
structure Game (O : Type) where
  lights : Fin 25 → Reactive O Light
  moves : Reactive O Nat

/-- Embeds `Game::new_empty`: 25 fresh unlit reactive lights, moves 0. -/
def Game.new_empty {O : Type} : Game O :=
  { lights := fun _ => Reactive.new Light.new, moves := Reactive.new 0 }

/-- The state effect of `self.lights[k].lock().toggle()`: one scoped mutation
on the reactive cell at `k` whose single write is `Light::toggle`. -/
def Game.lockToggle {O : Type} (g : Game O) (k : Fin 25) : Game O :=
  { g with
    lights := Function.update g.lights k
      { inner := (g.lights k).inner.toggle, listeners := (g.lights k).listeners } }

/-- Embeds `Game::toggle_rc`.  The two `assert!` calls become the range
checks; an assertion failure (panic) is `none`. -/
def Game.toggle_rc {O : Type} (g : Game O) (row col : Nat) : Option (Game O) :=
  if h1 : row < 5 then
    if h2 : col < 5 then
      some (g.lockToggle ⟨row * 5 + col, by omega⟩)
    else none
  else none

/-- Embeds `Game::toggle`: assert `i < 25`, toggle the cell at `i`, then the
in-bounds neighbors up, down, left, right, each through `toggle_rc`.
`row = i / 5`, `col = i % 5` are inlined. -/
def Game.toggle {O : Type} (g : Game O) (i : Nat) : Option (Game O) :=
  if h : i < 25 then
    (if i / 5 > 0 then (g.lockToggle ⟨i, h⟩).toggle_rc (i / 5 - 1) (i % 5)
     else some (g.lockToggle ⟨i, h⟩)).bind fun g2 =>
    (if i / 5 < 4 then g2.toggle_rc (i / 5 + 1) (i % 5) else some g2).bind fun g3 =>
    (if i % 5 > 0 then g3.toggle_rc (i / 5) (i % 5 - 1) else some g3).bind fun g4 =>
    (if i % 5 < 4 then g4.toggle_rc (i / 5) (i % 5 + 1) else some g4)
  else none

/-- Embeds `Game::check_rc`: asserts, then reads the lit status. -/
def Game.check_rc {O : Type} (g : Game O) (row col : Nat) : Option Bool :=
  if h1 : row < 5 then
    if h2 : col < 5 then some (g.lights ⟨row * 5 + col, by omega⟩).inner.status
    else none
  else none

/-- Embeds `Game::all_off`: scans the 25 cells, true iff none is lit. -/
def Game.all_off {O : Type} (g : Game O) : Bool :=
  (List.finRange 25).all fun i => !(g.lights i).inner.status

/-- Embeds `Game::make_move`: `self.toggle(row * 5 + col)` followed by
`*self.moves.lock() += 1`. -/
def Game.make_move {O : Type} (g : Game O) (row col : Nat) : Option (Game O) :=
  (g.toggle (row * 5 + col)).map fun g1 =>
    { g1 with moves := { inner := g1.moves.inner + 1, listeners := g1.moves.listeners } }

/-- The pre-shuffle toggle array of `Game::new_random`: 25 slots, the first
`difficulty` of them `true`. -/
def initToggles (difficulty : Nat) : List Bool :=
  (List.range 25).map fun i => decide (i < difficulty)

/-- Embeds `Game::new_random`.  The `assert!(difficulty <= 25)` becomes the
range check; `toggles.shuffle(rng)` is modelled by taking the post-shuffle
array `shuffled` as an argument (theorems quantify over every permutation of
`initToggles difficulty`); then `toggle i` runs for every `i` with
`shuffled[i]` true, in increasing order of `i`. -/
def Game.new_random {O : Type} (difficulty : Nat) (shuffled : List Bool) : Option (Game O) :=
  if difficulty ≤ 25 then
    (List.range 25).foldlM
      (fun g i => if shuffled.getD i false then g.toggle i else some g)
      (Game.new_empty : Game O)
  else none

/-- The 25 lit statuses of a game, the quantity the spec calls "the grid". -/
def Game.grid {O : Type} (g : Game O) : Fin 25 → Bool :=
  fun j => (g.lights j).inner.status

/-- Embeds `impl Display for Game`: the header write, the row loop with its
row-index write and per-column character pushes, and the final
`"\n\nTotal moves: {}\n"` write, accumulated into a `String`. -/
def Game.render {O : Type} (g : Game O) : String :=
  ((List.finRange 5).foldl (fun acc row =>
      (List.finRange 5).foldl (fun acc2 col =>
          acc2.push (if (g.check_rc row.val col.val).getD false then '!' else ' '))
        (acc ++ "\n" ++ toString row.val))
    " 01234") ++ "\n\nTotal moves: " ++ toString g.moves.inner ++ "\n"

/-- Cell `j` is the cell at flat index `i` itself, or one of its in-bounds
up/down/left/right grid neighbors (no wraparound): the plus shape that
`Game::toggle i` flips. -/
def Affects (i : Nat) (j : Fin 25) : Prop :=
  (i / 5 = j.val / 5 ∧ i % 5 = j.val % 5)
  ∨ (i % 5 = j.val % 5 ∧ (i / 5 = j.val / 5 + 1 ∨ j.val / 5 = i / 5 + 1))
  ∨ (i / 5 = j.val / 5 ∧ (i % 5 = j.val % 5 + 1 ∨ j.val % 5 = i % 5 + 1))

instance (i : Nat) (j : Fin 25) : Decidable (Affects i j) := by
  unfold Affects; infer_instance

example : (Game.new_empty : Game Unit).all_off = true := by decide
example : ((Game.new_empty : Game Unit).toggle 0).map Game.all_off = some false := by decide
example : ((Game.new_empty : Game Unit).check_rc 0 0) = some false := by decide
example : ((Game.new_empty : Game Unit).toggle 0).bind (fun g => g.check_rc 1 0) = some (some true) := by decide
example : ((Game.new_empty : Game Unit).toggle 0).bind (fun g => g.check_rc 1 1) = some (some false) := by decide
example : (Game.new_empty : Game Unit).render = " 01234\n0     \n1     \n2     \n3     \n4     \n\nTotal moves: 0\n" := by decide

lemma obind_some {A B : Type} (a : A) (f : A → Option B) : (some a).bind f = f a := rfl

lemma lockToggle_grid {O : Type} (g : Game O) (e : Nat) (p : e < 25) (j : Fin 25) :
    (g.lockToggle ⟨e, p⟩).grid j = if j.val = e then !(g.grid j) else g.grid j := by
  by_cases hv : j.val = e
  · rw [if_pos hv, show j = ⟨e, p⟩ from Fin.ext hv]
    simp only [Game.lockToggle, Game.grid, Function.update_same, Light.toggle]
  · rw [if_neg hv]
    simp only [Game.lockToggle, Game.grid]
    rw [Function.update_noteq (fun hj => hv (by rw [hj]))]

lemma toggle_rc_up {O : Type} (i : Nat) (h : i < 25) (g : Game O) :
    (if i / 5 > 0 then g.toggle_rc (i / 5 - 1) (i % 5) else some g)
      = some (if h2 : i / 5 > 0 then g.lockToggle ⟨(i / 5 - 1) * 5 + i % 5, by omega⟩ else g) := by
  by_cases h2 : i / 5 > 0
  · rw [if_pos h2, dif_pos h2]
    simp only [Game.toggle_rc]
    rw [dif_pos (by omega : i / 5 - 1 < 5), dif_pos (by omega : i % 5 < 5)]
  · rw [if_neg h2, dif_neg h2]

lemma toggle_rc_down {O : Type} (i : Nat) (h : i < 25) (g : Game O) :
    (if i / 5 < 4 then g.toggle_rc (i / 5 + 1) (i % 5) else some g)
      = some (if h2 : i / 5 < 4 then g.lockToggle ⟨(i / 5 + 1) * 5 + i % 5, by omega⟩ else g) := by
  by_cases h2 : i / 5 < 4
  · rw [if_pos h2, dif_pos h2]
    simp only [Game.toggle_rc]
    rw [dif_pos (by omega : i / 5 + 1 < 5), dif_pos (by omega : i % 5 < 5)]
  · rw [if_neg h2, dif_neg h2]

lemma toggle_rc_left {O : Type} (i : Nat) (h : i < 25) (g : Game O) :
    (if i % 5 > 0 then g.toggle_rc (i / 5) (i % 5 - 1) else some g)
      = some (if h2 : i % 5 > 0 then g.lockToggle ⟨(i / 5) * 5 + (i % 5 - 1), by omega⟩ else g) := by
  by_cases h2 : i % 5 > 0
  · rw [if_pos h2, dif_pos h2]
    simp only [Game.toggle_rc]
    rw [dif_pos (by omega : i / 5 < 5), dif_pos (by omega : i % 5 - 1 < 5)]
  · rw [if_neg h2, dif_neg h2]

lemma toggle_rc_right {O : Type} (i : Nat) (h : i < 25) (g : Game O) :
    (if i % 5 < 4 then g.toggle_rc (i / 5) (i % 5 + 1) else some g)
      = some (if h2 : i % 5 < 4 then g.lockToggle ⟨(i / 5) * 5 + (i % 5 + 1), by omega⟩ else g) := by
  by_cases h2 : i % 5 < 4
  · rw [if_pos h2, dif_pos h2]
    simp only [Game.toggle_rc]
    rw [dif_pos (by omega : i / 5 < 5), dif_pos (by omega : i % 5 + 1 < 5)]
  · rw [if_neg h2, dif_neg h2]

theorem Game.toggle_eq {O : Type} (g : Game O) (i : Nat) (h : i < 25) :
    ∃ g', g.toggle i = some g'
      ∧ (∀ j : Fin 25, g'.grid j = Bool.xor (decide (Affects i j)) (g.grid j))
      ∧ g'.moves = g.moves := by
  simp only [Game.toggle, dif_pos h, toggle_rc_up i h, toggle_rc_down i h,
    toggle_rc_left i h, toggle_rc_right i h, obind_some]
  refine ⟨_, rfl, ?_, ?_⟩
  · intro j
    have hj : j.val < 25 := j.isLt
    split_ifs <;>
      simp only [lockToggle_grid] <;>
      split_ifs <;>
      first
        | (exfalso; omega)
        | (rw [decide_eq_true (show Affects i j by unfold Affects; omega)]
           cases hgj : g.grid j <;> rfl)
        | (rw [decide_eq_false (show ¬ Affects i j by unfold Affects; omega)]
           cases hgj : g.grid j <;> rfl)
  · split_ifs <;> rfl

lemma xor_xor_cancel (a b : Bool) : Bool.xor a (Bool.xor a b) = b := by
  cases a <;> cases b <;> rfl

/-- C1: for every flat index `i < 25` and every game state, running
`Game::toggle i` twice in succession returns the grid (all 25 lit statuses)
to exactly its prior state. -/
theorem toggle_involution {O : Type} (g : Game O) (i : Nat) (h : i < 25) :
    ((g.toggle i).bind fun g1 => g1.toggle i).map Game.grid = some g.grid := by
  obtain ⟨g1, e1, hg1, -⟩ := Game.toggle_eq g i h
  obtain ⟨g2, e2, hg2, -⟩ := Game.toggle_eq g1 i h
  rw [e1, obind_some, e2, Option.map_some']
  congr 1
  funext j
  rw [hg2 j, hg1 j, xor_xor_cancel]

/-- Witness for C1 at a concrete input. -/
theorem toggle_involution_app :
    (0 : Nat) < 25 ∧
      (((Game.new_empty : Game Unit).toggle 0).bind fun g1 => g1.toggle 0).map Game.grid
        = some (Game.new_empty : Game Unit).grid :=
  ⟨by omega, toggle_involution (Game.new_empty : Game Unit) 0 (by omega)⟩

/-- C3: `Game::toggle i` flips exactly the lit status of the cell at `i` and
of its in-bounds up/down/left/right neighbors (no wraparound), and leaves
every other cell's lit status unchanged. -/
theorem toggle_plus_shape {O : Type} (g : Game O) (i : Nat) (h : i < 25) :
    ∃ g', g.toggle i = some g'
      ∧ ∀ j : Fin 25, g'.grid j = if Affects i j then !(g.grid j) else g.grid j := by
  obtain ⟨g', e, hg, -⟩ := Game.toggle_eq g i h
  refine ⟨g', e, fun j => ?_⟩
  rw [hg j]
  by_cases ha : Affects i j
  · rw [if_pos ha, decide_eq_true ha]
    cases g.grid j <;> rfl
  · rw [if_neg ha, decide_eq_false ha]
    cases g.grid j <;> rfl

/-- Witness for C3 at a concrete input. -/
theorem toggle_plus_shape_app :
    (12 : Nat) < 25 ∧
      ∃ g', (Game.new_empty : Game Unit).toggle 12 = some g'
        ∧ ∀ j : Fin 25, g'.grid j
            = if Affects 12 j then !((Game.new_empty : Game Unit).grid j)
              else (Game.new_empty : Game Unit).grid j :=
  ⟨by omega, toggle_plus_shape (Game.new_empty : Game Unit) 12 (by omega)⟩

/-- C10: for all flat indices `i, j < 25` and every game state, the grid after
`toggle i` then `toggle j` equals the grid after `toggle j` then `toggle i`. -/
theorem toggle_commutes {O : Type} (g : Game O) (i j : Nat)
    (hi : i < 25) (hj : j < 25) :
    ((g.toggle i).bind fun g1 => g1.toggle j).map Game.grid
      = ((g.toggle j).bind fun g1 => g1.toggle i).map Game.grid := by
  obtain ⟨a1, ea1, ha1, -⟩ := Game.toggle_eq g i hi
  obtain ⟨a2, ea2, ha2, -⟩ := Game.toggle_eq a1 j hj
  obtain ⟨b1, eb1, hb1, -⟩ := Game.toggle_eq g j hj
  obtain ⟨b2, eb2, hb2, -⟩ := Game.toggle_eq b1 i hi
  rw [ea1, obind_some, ea2, eb1, obind_some, eb2, Option.map_some', Option.map_some']
  congr 1
  funext k
  rw [ha2 k, ha1 k, hb2 k, hb1 k]
  cases decide (Affects i k) <;> cases decide (Affects j k) <;>
    cases g.grid k <;> rfl

/-- Witness for C10 at a concrete input. -/
theorem toggle_commutes_app :
    (3 : Nat) < 25 ∧ (17 : Nat) < 25 ∧
      (((Game.new_empty : Game Unit).toggle 3).bind fun g1 => g1.toggle 17).map Game.grid
        = (((Game.new_empty : Game Unit).toggle 17).bind fun g1 => g1.toggle 3).map Game.grid :=
  ⟨by omega, by omega,
    toggle_commutes (Game.new_empty : Game Unit) 3 17 (by omega) (by omega)⟩

/-- C2 counterexample: from the empty game, `toggle_rc 0 0` and `toggle 0` do
NOT have the same effect on the grid (`toggle_rc` flips only cell (0,0),
`toggle 0` also flips (0,1) and (1,0)), refuting the claim at the concrete
input `row = 0`, `col = 0`, state `new_empty`. -/
theorem toggle_rc_differs_from_toggle :
    ¬ (((Game.new_empty : Game Unit).toggle_rc 0 0).map Game.grid
        = ((Game.new_empty : Game Unit).toggle 0).map Game.grid) := by decide

/-- C2 amended: `Game::toggle_rc row col` flips exactly the single cell at
flat index `row * 5 + col`, leaves every other cell and the move counter
unchanged, and fails iff `row ≥ 5` or `col ≥ 5`; it does not propagate to
neighbors the way `toggle (row * 5 + col)` does. -/
theorem toggle_rc_single_cell {O : Type} (g : Game O) (row col : Nat)
    (hr : row < 5) (hc : col < 5) :
    ∃ g', g.toggle_rc row col = some g'
      ∧ (∀ j : Fin 25, g'.grid j
          = if j.val = row * 5 + col then !(g.grid j) else g.grid j)
      ∧ g'.moves = g.moves := by
  refine ⟨g.lockToggle ⟨row * 5 + col, by omega⟩, ?_, fun j => ?_, rfl⟩
  · simp only [Game.toggle_rc]
    rw [dif_pos hr, dif_pos hc]
  · rw [lockToggle_grid]

/-- Witness for the amended C2 at a concrete input. -/
theorem toggle_rc_single_cell_app :
    (2 : Nat) < 5 ∧ (3 : Nat) < 5 ∧
      ∃ g', (Game.new_empty : Game Unit).toggle_rc 2 3 = some g'
        ∧ (∀ j : Fin 25, g'.grid j
            = if j.val = 2 * 5 + 3 then !((Game.new_empty : Game Unit).grid j)
              else (Game.new_empty : Game Unit).grid j)
        ∧ g'.moves = (Game.new_empty : Game Unit).moves :=
  ⟨by omega, by omega,
    toggle_rc_single_cell (Game.new_empty : Game Unit) 2 3 (by omega) (by omega)⟩

lemma toggle_moves {O : Type} {g g' : Game O} {i : Nat}
    (h : g.toggle i = some g') : g'.moves = g.moves := by
  by_cases hi : i < 25
  · obtain ⟨g1, e1, -, hm⟩ := Game.toggle_eq g i hi
    rw [e1] at h
    injection h with h
    exact h ▸ hm
  · rw [Game.toggle, dif_neg hi] at h
    cases h

lemma toggle_rc_moves {O : Type} {g g' : Game O} {row col : Nat}
    (h : g.toggle_rc row col = some g') : g'.moves = g.moves := by
  by_cases hr : row < 5
  · by_cases hc : col < 5
    · rw [Game.toggle_rc, dif_pos hr, dif_pos hc] at h
      injection h with h
      rw [← h]
      rfl
    · rw [Game.toggle_rc, dif_pos hr, dif_neg hc] at h
      cases h
  · rw [Game.toggle_rc, dif_neg hr] at h
    cases h

lemma foldlM_toggle_moves {O : Type} (f : Nat → Bool) :
    ∀ (L : List Nat) (g g' : Game O),
      L.foldlM (fun a i => if f i then a.toggle i else some a) g = some g' →
        g'.moves = g.moves := by
  intro L
  induction L with
  | nil => intro g g' h; injection h with h; rw [h]
  | cons x xs ih =>
    intro g g' h
    rw [List.foldlM_cons] at h
    by_cases hfx : f x
    · rw [if_pos hfx] at h
      cases ht : g.toggle x with
      | none => rw [ht] at h; cases h
      | some a =>
        rw [ht] at h
        rw [ih a g' h, toggle_moves ht]
    · rw [if_neg hfx] at h
      exact ih g g' h

/-- C5: `make_move` increments the move counter by exactly 1 per call (no
matter how many cells the underlying toggle flips), while `toggle` and
`toggle_rc` never change it; consequently `new_random` leaves it at 0. -/
theorem move_accounting :
    (∀ (O : Type) (g : Game O) (row col : Nat), row < 5 → col < 5 →
        (g.make_move row col).map (fun x => x.moves.inner) = some (g.moves.inner + 1))
  ∧ (∀ (O : Type) (g g' : Game O) (i : Nat),
        g.toggle i = some g' → g'.moves.inner = g.moves.inner)
  ∧ (∀ (O : Type) (g g' : Game O) (row col : Nat),
        g.toggle_rc row col = some g' → g'.moves.inner = g.moves.inner)
  ∧ (∀ (O : Type) (g' : Game O) (difficulty : Nat) (shuffled : List Bool),
        Game.new_random difficulty shuffled = some g' → g'.moves.inner = 0) := by
  refine ⟨?_, ?_, ?_, ?_⟩
  · intro O g row col hr hc
    obtain ⟨g1, e1, -, hm⟩ := Game.toggle_eq g (row * 5 + col) (by omega)
    rw [Game.make_move, e1, Option.map_some', Option.map_some']
    rw [show g1.moves = g.moves from hm]
  · intro O g g' i h
    rw [toggle_moves h]
  · intro O g g' row col h
    rw [toggle_rc_moves h]
  · intro O g' difficulty shuffled h
    by_cases hd : difficulty ≤ 25
    · rw [Game.new_random, if_pos hd] at h
      rw [foldlM_toggle_moves (fun i => shuffled.getD i false) (List.range 25)
        Game.new_empty g' h]
      rfl
    · rw [Game.new_random, if_neg hd] at h
      cases h

/-- Witness for C5 at concrete inputs. -/
theorem move_accounting_app :
    ((2 : Nat) < 5 ∧ (2 : Nat) < 5 ∧
      ((Game.new_empty : Game Unit).make_move 2 2).map (fun x => x.moves.inner)
        = some ((Game.new_empty : Game Unit).moves.inner + 1))
  ∧ ((Game.new_empty : Game Unit).toggle 7
        = some (((Game.new_empty : Game Unit).toggle 7).get (by decide))
      ∧ ((((Game.new_empty : Game Unit).toggle 7).get (by decide)).moves.inner
          = (Game.new_empty : Game Unit).moves.inner))
  ∧ ((Game.new_empty : Game Unit).toggle_rc 1 1
        = some (((Game.new_empty : Game Unit).toggle_rc 1 1).get (by decide))
      ∧ ((((Game.new_empty : Game Unit).toggle_rc 1 1).get (by decide)).moves.inner
          = (Game.new_empty : Game Unit).moves.inner))
  ∧ ((Game.new_random 4 (initToggles 4) : Option (Game Unit))
        = some ((Game.new_random 4 (initToggles 4) : Option (Game Unit)).get (by decide))
      ∧ ((Game.new_random 4 (initToggles 4) : Option (Game Unit)).get (by decide)).moves.inner = 0) :=
  ⟨⟨by omega, by omega,
      move_accounting.1 Unit Game.new_empty 2 2 (by omega) (by omega)⟩,
    ⟨(Option.some_get (by decide)).symm,
      move_accounting.2.1 Unit Game.new_empty _ 7 (Option.some_get (by decide)).symm⟩,
    ⟨(Option.some_get (by decide)).symm,
      move_accounting.2.2.1 Unit Game.new_empty _ 1 1 (Option.some_get (by decide)).symm⟩,
    ⟨(Option.some_get (by decide)).symm,
      move_accounting.2.2.2 Unit _ 4 (initToggles 4) (Option.some_get (by decide)).symm⟩⟩

lemma applyWrites_no_invoke {O T : Type} :
    ∀ (writes : List (T → T)) (v : T),
      ∀ e ∈ (@applyWrites O T v writes).2, e.isInvoke = false := by
  intro writes
  induction writes with
  | nil => intro v e he; cases he
  | cons f fs ih =>
    intro v e he
    simp only [applyWrites] at he
    rcases List.mem_cons.mp he with rfl | he2
    · rfl
    · exact ih (f v) e he2

lemma notifyAll_eq_map {O T : Type} (v : T) :
    ∀ (L : List O), notifyAll v L = L.map fun o => REvent.invoke o v := by
  intro L
  induction L with
  | nil => rfl
  | cons o os ih => simp only [notifyAll, List.map_cons, ih]

/-- C4: for every reactive cell and every scoped mutation through its handle,
the invocation events of the scope's trace are exactly one invocation per
registered observer, in registration order, each carrying the post-scope
value; and the whole trace is those invocations after a prefix containing no
invocation at all (observers never run while the scope is still open). -/
theorem scoped_mutation_notifies {O T : Type} (r : Reactive O T)
    (writes : List (T → T)) :
    ((r.runScope writes).2.filter fun e => e.isInvoke)
        = r.listeners.map (fun o => REvent.invoke o (r.runScope writes).1.inner)
  ∧ ∃ pre, (r.runScope writes).2
        = pre ++ r.listeners.map (fun o => REvent.invoke o (r.runScope writes).1.inner)
      ∧ ∀ e ∈ pre, e.isInvoke = false := by
  simp only [Reactive.runScope]
  constructor
  · rw [List.filter_append, notifyAll_eq_map]
    rw [List.filter_eq_nil.mpr ?nopre]
    case nopre =>
      intro e he
      simp [applyWrites_no_invoke writes r.inner e he]
    rw [List.nil_append]
    apply List.filter_eq_self.mpr
    intro e he
    rcases List.mem_map.mp he with ⟨o, -, rfl⟩
    rfl
  · refine ⟨(@applyWrites O T r.inner writes).2, ?_, applyWrites_no_invoke writes r.inner⟩
    rw [notifyAll_eq_map]

/-- C6: from `new_empty`, `make_move 2 2` lights exactly (1,2), (3,2), (2,1),
(2,3), (2,2) with move counter 1; a second `make_move 2 2` returns every cell
to unlit with move counter 2 and `all_off` true. -/
theorem end_to_end_scenario :
    (((Game.new_empty : Game Unit).make_move 2 2).map (fun g1 =>
        ((List.finRange 5).all fun r => (List.finRange 5).all fun c =>
          g1.check_rc r.val c.val
            == some (decide ((r.val, c.val)
                  ∈ ([(1, 2), (3, 2), (2, 1), (2, 3), (2, 2)] : List (Nat × Nat)))))
        && (g1.moves.inner == 1)) = some true)
  ∧ ((((Game.new_empty : Game Unit).make_move 2 2).bind fun g1 => g1.make_move 2 2).map
      (fun g2 =>
        ((List.finRange 5).all fun r => (List.finRange 5).all fun c =>
          g2.check_rc r.val c.val == some false)
        && (g2.moves.inner == 2) && g2.all_off) = some true) := by
  constructor
  · decide
  · decide

lemma initToggles_full : initToggles 25 = List.replicate 25 true := by decide

/-- C7: for every outcome of the shuffle (every permutation of the
difficulty-25 toggle array), `new_random 25` produces a board that is not
solved: `all_off` is false. -/
theorem new_random_full_not_solved (shuffled : List Bool)
    (h : shuffled.Perm (initToggles 25)) :
    (Game.new_random 25 shuffled : Option (Game Unit)).map Game.all_off
      = some false := by
  rw [initToggles_full] at h
  rw [List.perm_replicate.mp h]
  decide

/-- Witness for C7 at a concrete shuffle outcome. -/
theorem new_random_full_not_solved_app :
    (initToggles 25).Perm (initToggles 25) ∧
      (Game.new_random 25 (initToggles 25) : Option (Game Unit)).map Game.all_off
        = some false :=
  ⟨List.Perm.refl _, new_random_full_not_solved (initToggles 25) (List.Perm.refl _)⟩

/-- The character rendered for the cell at `(r, c)`: `'!'` when lit, else a
space. -/
def gridChar {O : Type} (g : Game O) (r c : Fin 5) : Char :=
  if g.grid ⟨r.val * 5 + c.val, by omega⟩ then '!' else ' '

/-- One rendered grid row: the row index followed by the five cell
characters. -/
def lineOf {O : Type} (g : Game O) (r : Fin 5) : String :=
  toString r.val ++ String.mk ((List.finRange 5).map fun c => gridChar g r c)

lemma string_eq_of_data {a b : String} (h : a.data = b.data) : a = b := by
  cases a
  cases b
  simp only at h
  rw [h]

lemma data_append (s t : String) : (s ++ t).data = s.data ++ t.data := rfl

lemma data_push (s : String) (c : Char) : (s.push c).data = s.data ++ [c] := rfl

lemma data_mk (l : List Char) : (String.mk l).data = l := rfl

lemma render_lines {O : Type} (g : Game O) :
    g.render = " 01234" ++ "\n" ++ lineOf g 0 ++ "\n" ++ lineOf g 1
      ++ "\n" ++ lineOf g 2 ++ "\n" ++ lineOf g 3 ++ "\n" ++ lineOf g 4
      ++ "\n" ++ "\n" ++ "Total moves: " ++ toString g.moves.inner ++ "\n" := by
  have h5 : List.finRange 5 = [0, 1, 2, 3, 4] := by decide
  have hv0 : ((0 : Fin 5)).val = 0 := rfl
  have hv1 : ((1 : Fin 5)).val = 1 := rfl
  have hv2 : ((2 : Fin 5)).val = 2 := rfl
  have hv3 : ((3 : Fin 5)).val = 3 := rfl
  have hv4 : ((4 : Fin 5)).val = 4 := rfl
  apply string_eq_of_data
  simp [Game.render, Game.check_rc, Game.grid, lineOf, gridChar, h5,
    hv0, hv1, hv2, hv3, hv4, data_append, data_push, data_mk, List.append_assoc]

/-- C8: the rendering is exactly the header row `" 01234"`, then for each row
`0..5` a line of the row index followed by `'!'`/`' '` per cell, then a blank
line and the `"Total moves: {moves}"` line — nothing else; and it is a pure
function of the grid statuses and the move count. -/
theorem render_contract {O : Type} (g : Game O) :
    (g.render = " 01234" ++ "\n" ++ lineOf g 0 ++ "\n" ++ lineOf g 1
      ++ "\n" ++ lineOf g 2 ++ "\n" ++ lineOf g 3 ++ "\n" ++ lineOf g 4
      ++ "\n" ++ "\n" ++ "Total moves: " ++ toString g.moves.inner ++ "\n")
  ∧ ∀ (O2 : Type) (g2 : Game O2), g.grid = g2.grid →
      g.moves.inner = g2.moves.inner → g.render = g2.render := by
  refine ⟨render_lines g, ?_⟩
  intro O2 g2 hgrid hmoves
  rw [render_lines g, render_lines g2]
  simp only [lineOf, gridChar, hgrid, hmoves]

/-- Witness for C8 at a concrete input. -/
theorem render_contract_app :
    (Game.new_empty : Game Unit).grid = (Game.new_empty : Game Unit).grid
  ∧ (Game.new_empty : Game Unit).moves.inner = (Game.new_empty : Game Unit).moves.inner
  ∧ (Game.new_empty : Game Unit).render = (Game.new_empty : Game Unit).render :=
  ⟨rfl, rfl,
    (render_contract (Game.new_empty : Game Unit)).2 Unit Game.new_empty rfl rfl⟩

lemma foldlM_toggle_isSome {O : Type} (f : Nat → Bool) :
    ∀ (L : List Nat), (∀ i ∈ L, i < 25) → ∀ (g : Game O),
      (L.foldlM (fun a i => if f i then a.toggle i else some a) g).isSome := by
  intro L
  induction L with
  | nil => intro _ g; rfl
  | cons x xs ih =>
    intro hL g
    rw [List.foldlM_cons]
    by_cases hfx : f x
    · rw [if_pos hfx]
      obtain ⟨g1, e1, -, -⟩ := Game.toggle_eq g x (hL x (List.mem_cons_self x xs))
      rw [e1]
      exact ih (fun i hi => hL i (List.mem_cons_of_mem x hi)) g1
    · rw [if_neg hfx]
      exact ih (fun i hi => hL i (List.mem_cons_of_mem x hi)) g

/-- C9: `toggle`, `toggle_rc`, `check_rc` and `new_random` each fail (the
Rust `assert!` panics, modelled as `none`) exactly when the argument is out
of range — `i ≥ 25`, `row ≥ 5` or `col ≥ 5`, `difficulty > 25` — and succeed
for every in-range argument. -/
theorem precondition_failures_iff :
    (∀ (O : Type) (g : Game O) (i : Nat), (g.toggle i).isSome ↔ i < 25)
  ∧ (∀ (O : Type) (g : Game O) (row col : Nat),
        (g.toggle_rc row col).isSome ↔ (row < 5 ∧ col < 5))
  ∧ (∀ (O : Type) (g : Game O) (row col : Nat),
        (g.check_rc row col).isSome ↔ (row < 5 ∧ col < 5))
  ∧ (∀ (O : Type) (difficulty : Nat) (shuffled : List Bool),
        (Game.new_random difficulty shuffled : Option (Game O)).isSome
          ↔ difficulty ≤ 25) := by
  refine ⟨?_, ?_, ?_, ?_⟩
  · intro O g i
    constructor
    · intro hs
      by_contra hi
      rw [Game.toggle, dif_neg hi] at hs
      cases hs
    · intro hi
      obtain ⟨g1, e1, -, -⟩ := Game.toggle_eq g i hi
      rw [e1]
      rfl
  · intro O g row col
    by_cases hr : row < 5
    · by_cases hc : col < 5
      · rw [Game.toggle_rc, dif_pos hr, dif_pos hc]
        simp [hr, hc]
      · rw [Game.toggle_rc, dif_pos hr, dif_neg hc]
        simp [hc]
    · rw [Game.toggle_rc, dif_neg hr]
      simp [hr]
  · intro O g row col
    by_cases hr : row < 5
    · by_cases hc : col < 5
      · rw [Game.check_rc, dif_pos hr, dif_pos hc]
        simp [hr, hc]
      · rw [Game.check_rc, dif_pos hr, dif_neg hc]
        simp [hc]
    · rw [Game.check_rc, dif_neg hr]
      simp [hr]
  · intro O difficulty shuffled
    by_cases hd : difficulty ≤ 25
    · rw [Game.new_random, if_pos hd]
      exact iff_of_true
        (foldlM_toggle_isSome (fun i => shuffled.getD i false) (List.range 25)
          (fun i hi => List.mem_range.mp hi) Game.new_empty)
        hd
    · rw [Game.new_random, if_neg hd]
      simp [hd]
